import Mathlib

/-!
Shallow embedding of the showlist recommendation subsystem.

JavaScript numbers are modelled by `ℚ` (all arithmetic in the modelled code is
+, -, *, /, min, max and comparisons on values that stay exact); the one place
the code calls `Math.sqrt` (cosine similarity) is modelled over `ℝ` with
`Real.sqrt` for the scoring function itself, and with an abstract square-root
oracle inside the orchestrator, where the exact value never matters for the
stated properties.  JavaScript strings are `String`, `null`/missing strings are
`Option String`, and JS objects used as keyed records (`Record<string, number>`,
`Map`) are insertion-ordered association lists.  External collaborators
(storage, the genre service, the embedding backend, date-fns parsing and the
clock) are oracle functions gathered in an environment structure.
-/

namespace Showlist

/-- An event row, from `src/types/index.ts` (`interface Show`). -/
structure Show where
  artist : String
  venue : String
  address : String
  eventLink : String
  venueLink : String
  mapLink : Option String
  time : Option String
deriving DecidableEq, Repr

/-- One catalog day, from `src/types/index.ts` (`interface EventDay`). -/
structure EventDay where
  date : String
  shows : List Show
deriving DecidableEq, Repr

/-- The four time-of-day counters of a profile
(`userBehaviorTracker.ts`, `timePreferences`). -/
structure TimePreferences where
  morning : ℚ
  afternoon : ℚ
  evening : ℚ
  lateNight : ℚ
deriving DecidableEq, Repr

/-- `UserProfile` from `userBehaviorTracker.ts`; the `Record<string, number>`
fields are insertion-ordered association lists. -/
structure UserProfile where
  favoriteArtists : List (String × ℚ)
  favoriteVenues : List (String × ℚ)
  timePreferences : TimePreferences
  dayPreferences : List (String × ℚ)
  totalInteractions : ℚ
  lastUpdated : String
deriving DecidableEq, Repr

/-- JS record read `rec[k] || 0`: first binding wins, absent or zero gives 0. -/
def lookupCount (l : List (String × ℚ)) (k : String) : ℚ :=
  ((l.find? (fun p => p.1 = k)).map Prod.snd).getD 0

/-- JS `s.trim()`: strip leading and trailing whitespace (structural model
of the built-in, so that it evaluates). -/
def jsTrim (s : String) : String :=
  String.mk (((s.data.dropWhile Char.isWhitespace).reverse.dropWhile
    Char.isWhitespace).reverse)

/-- JS `s.toLowerCase()` (ASCII range, structural model of the built-in). -/
def jsToLower (s : String) : String :=
  String.mk (s.data.map Char.toLower)

/-- JS `s.split(sep)[0]`: the prefix before the first separator. -/
def headSegment (sep : Char) (s : String) : String :=
  String.mk (s.data.takeWhile (fun c => ¬(c = sep)))

/-- JS `parseInt(s)` restricted to base 10: skip whitespace, optional sign,
value of the maximal leading digit prefix; `none` models `NaN`. -/
def jsParseInt (s : String) : Option ℤ :=
  let digits (cs : List Char) : Option ℕ :=
    let ds := cs.takeWhile Char.isDigit
    if ds.isEmpty then none
    else some (ds.foldl (fun acc c => acc * 10 + (c.toNat - 48)) 0)
  match (jsTrim s).data with
  | '-' :: rest => (digits rest).map (fun n => -(n : ℤ))
  | '+' :: rest => (digits rest).map (fun n => (n : ℤ))
  | cs => (digits cs).map (fun n => (n : ℤ))

/-! ### twoTowerScoring.ts -/

/-- Cache/embedding key, from `twoTowerScoring.ts` `showKey`. -/
def showKey (artist venue : String) : String :=
  jsTrim artist ++ "|" ++ jsTrim venue

/-- Mean of the vectors having the first vector's length, from
`twoTowerScoring.ts` `meanVector`. -/
def meanVector (vectors : List (List ℚ)) : List ℚ :=
  match vectors with
  | [] => []
  | v0 :: _ =>
    let dim := v0.length
    let valid := vectors.filter (fun v => v.length = dim)
    let n := valid.length
    if n = 0 then []
    else
      let sum := valid.foldl (fun acc v => List.zipWith (· + ·) acc v)
        (List.replicate dim 0)
      sum.map (fun x => x / (n : ℚ))

/-- Real-valued model of `twoTowerScoring.ts` `cosineSimilarity`; `Math.sqrt`
is `Real.sqrt`. -/
noncomputable def cosineSimilarity (a b : List ℝ) : ℝ :=
  if a.length = 0 ∨ b.length = 0 ∨ a.length ≠ b.length then 0
  else
    let dot := (List.zipWith (· * ·) a b).sum
    let normA := (a.map (fun x => x * x)).sum
    let normB := (b.map (fun x => x * x)).sum
    let denom := Real.sqrt normA * Real.sqrt normB
    if denom ≤ 0 then 0 else dot / denom

/-- Map a cosine from [-1,1] to [0,1], from `twoTowerScoring.ts`
`cosineToZeroOne` (real-valued model). -/
noncomputable def cosineToZeroOne (c : ℝ) : ℝ :=
  max 0 ((c + 1) / 2)

/-- The same `cosineSimilarity`, over `ℚ` with the floating-point square root
left as an oracle; used inside the orchestrator model, whose stated
properties never depend on the square root's value. -/
def cosineSimilarityQ (sqrtQ : ℚ → ℚ) (a b : List ℚ) : ℚ :=
  if a.length = 0 ∨ b.length = 0 ∨ a.length ≠ b.length then 0
  else
    let dot := (List.zipWith (· * ·) a b).sum
    let normA := (a.map (fun x => x * x)).sum
    let normB := (b.map (fun x => x * x)).sum
    let denom := sqrtQ normA * sqrtQ normB
    if denom ≤ 0 then 0 else dot / denom

/-- Rational version of `cosineToZeroOne`. -/
def cosineToZeroOneQ (c : ℚ) : ℚ :=
  max 0 ((c + 1) / 2)

/-- The two-tower score as computed at `mlRecommendationEngine.ts:227-233`:
`0` unless both the user vector and the candidate's item vector are
non-empty (real-valued model). -/
noncomputable def twoTowerScore (userEmbedding : List ℝ)
    (itemEmb : Option (List ℝ)) : ℝ :=
  if userEmbedding.length > 0 then
    match itemEmb with
    | some v => if v.length > 0 then cosineToZeroOne (cosineSimilarity userEmbedding v) else 0
    | none => 0
  else 0

/-! ### mlService.ts -/

/-- `UserFeatures` from `mlService.ts`. -/
structure UserFeatures where
  favoriteArtists : List ℚ
  favoriteVenues : List ℚ
  timePreferences : List ℚ
  dayPreferences : List ℚ
deriving DecidableEq, Repr

/-- `EventFeatures` from `mlService.ts`. -/
structure EventFeatures where
  artistId : ℚ
  venueId : ℚ
  timeOfDay : ℚ
  dayOfWeek : ℚ
  hasEventLink : ℚ
  hasMapLink : ℚ
deriving DecidableEq, Repr

/-- `RecommendationModel.normalizeArray`: `Math.max(...arr, 1)` is the fold of
`max` over the array starting from 1. -/
def normalizeArray (arr : List ℚ) : List ℚ :=
  if arr.isEmpty then [0]
  else
    let m := arr.foldl max 1
    arr.map (fun x => x / m)

/-- `RecommendationModel.buildFeatureVector`: concatenates the normalized user
features with the event features and then applies `.slice(0, 10)`. -/
def buildFeatureVector (u : UserFeatures) (e : EventFeatures) : List ℚ :=
  let normalizedArtists := normalizeArray u.favoriteArtists
  let normalizedVenues := normalizeArray u.favoriteVenues
  let normalizedTime := normalizeArray u.timePreferences
  let normalizedDay := normalizeArray u.dayPreferences
  (normalizedArtists.headD 0 ::
    normalizedVenues.headD 0 ::
      (normalizedTime.take 4 ++
        [normalizedDay.headD 0,
         e.artistId / 1000,
         e.venueId / 1000,
         e.timeOfDay / 4,
         e.dayOfWeek / 7,
         e.hasEventLink,
         e.hasMapLink])).take 10

/-! ### embeddingCache.ts

The in-memory embedding cache (its source appears verbatim in
`TENSORFLOW_SETUP.md`).  A JS `Map` is an insertion-ordered association
list with unique keys: `set` of a present key updates in place, `set` of a
fresh key appends, iteration follows insertion order. -/

/-- One cache entry: embedding vector plus insertion/refresh timestamp. -/
structure CacheEntry where
  embedding : List ℚ
  ts : ℚ
deriving DecidableEq, Repr

/-- The cache `Map`, in insertion order. -/
abbrev EmbCache := List (String × CacheEntry)

/-- `Map.set` semantics. -/
def mapSet (m : EmbCache) (k : String) (v : CacheEntry) : EmbCache :=
  if m.any (fun p => p.1 = k) then
    m.map (fun p => if p.1 = k then (k, v) else p)
  else m ++ [(k, v)]

/-- `Map.delete` semantics. -/
def mapDelete (m : EmbCache) (k : String) : EmbCache :=
  m.filter (fun p => ¬(p.1 = k))

/-- Cache TTL, 7 days in milliseconds (`TTL_MS`). -/
def TTL_MS : ℚ := 7 * 24 * 60 * 60 * 1000

/-- Cache capacity (`MAX_ENTRIES`). -/
def MAX_ENTRIES : ℕ := 300

/-- The `for (const [k, v] of cache)` scan of `evictOldest`: starting from
`oldestTs = Infinity` (modelled by the `none` accumulator), keep the first
entry whose timestamp is strictly below the running minimum. -/
def oldestScan (acc : Option (String × ℚ)) (m : EmbCache) : Option (String × ℚ) :=
  m.foldl
    (fun acc p =>
      match acc with
      | none => some (p.1, p.2.ts)
      | some q => if p.2.ts < q.2 then some (p.1, p.2.ts) else acc)
    acc

/-- `evictOldest` from the embedding cache: no-op below capacity, otherwise
delete the first entry carrying the minimal timestamp. -/
def evictOldest (m : EmbCache) : EmbCache :=
  if m.length < MAX_ENTRIES then m
  else
    match oldestScan none m with
    | some q => mapDelete m q.1
    | none => m

/-- `setEmbedding`: refuse empty vectors, evict at capacity, then `Map.set`.
`now` is the `Date.now()` oracle value. -/
def setEmbedding (m : EmbCache) (artist venue : String) (embedding : List ℚ)
    (now : ℚ) : EmbCache :=
  if embedding.isEmpty then m
  else
    let m1 := if MAX_ENTRIES ≤ m.length then evictOldest m else m
    mapSet m1 (showKey artist venue) ⟨embedding, now⟩

/-- `getEmbedding`: miss on absent or empty entry, purge-and-miss on an entry
older than the TTL; returns the result and the possibly-purged cache. -/
def getEmbedding (m : EmbCache) (artist venue : String) (now : ℚ) :
    Option (List ℚ) × EmbCache :=
  let k := showKey artist venue
  match m.find? (fun p => p.1 = k) with
  | none => (none, m)
  | some p =>
    if p.2.embedding.isEmpty then (none, m)
    else if TTL_MS < now - p.2.ts then (none, mapDelete m k)
    else (some p.2.embedding, m)

/-! ### explanationGenerator.ts

`generateExplanation(show, profile, mlScore, eventDate?)` accumulates a point
score and a reason list in five blocks (artist, venue, time-of-day, ML boost,
recency), then derives the summary text and `confidence = min(score/100, 1)`.
Each block is modelled as a `ℚ × List String` pair and the function is their
in-order combination, exactly mirroring the sequential `score += ...;
reasons.push(...)` structure of the source.  `new Date(eventDate).getTime()`
is the oracle `jsDate` (`none` = invalid date) and `new Date().getTime()` the
oracle value `nowMs`. -/

/-- Time-of-day buckets used by the explanation generator. -/
inductive TimeBucket where
  | morning | afternoon | evening | lateNight
deriving DecidableEq, Repr

/-- `extractTimeOfDay` from `explanationGenerator.ts`: bucket of the hour
parsed from the text before the first colon; `none` for a missing/empty time,
an unparsable hour (`NaN` fails every comparison) or an hour in `[2,6)`. -/
def extractTimeOfDay (time : Option String) : Option TimeBucket :=
  match time with
  | none => none
  | some t =>
    if t = "" then none
    else
      match jsParseInt (headSegment (':') t) with
      | none => none
      | some hour =>
        if 6 ≤ hour ∧ hour < 12 then some TimeBucket.morning
        else if 12 ≤ hour ∧ hour < 17 then some TimeBucket.afternoon
        else if 17 ≤ hour ∧ hour < 22 then some TimeBucket.evening
        else if 22 ≤ hour ∨ hour < 2 then some TimeBucket.lateNight
        else none

/-- Field access `profile.timePreferences[bucket]`. -/
def bucketCount (tp : TimePreferences) : TimeBucket → ℚ
  | TimeBucket.morning => tp.morning
  | TimeBucket.afternoon => tp.afternoon
  | TimeBucket.evening => tp.evening
  | TimeBucket.lateNight => tp.lateNight

/-- The `timeLabels` record of `generateExplanation`. -/
def timeLabel : TimeBucket → String
  | TimeBucket.morning => "morning"
  | TimeBucket.afternoon => "afternoon"
  | TimeBucket.evening => "evening"
  | TimeBucket.lateNight => "late night"

/-- Block 1 of `generateExplanation` (artist match, up to 40 points). -/
def artistSignal (sh : Show) (profile : UserProfile) : ℚ × List String :=
  let artistCount := lookupCount profile.favoriteArtists sh.artist
  if artistCount > 0 then
    (min (artistCount * 20) 40,
     if artistCount = 1 then
       ["You\x27ve favorited " ++ sh.artist ++ " before"]
     else
       ["You\x27ve favorited " ++ sh.artist ++ " " ++ toString artistCount ++ " times"])
  else (0, [])

/-- Block 2 of `generateExplanation` (venue match, up to 30 points). -/
def venueSignal (sh : Show) (profile : UserProfile) : ℚ × List String :=
  let venueCount := lookupCount profile.favoriteVenues sh.venue
  if venueCount > 0 then
    (min (venueCount * 15) 30,
     if venueCount = 1 then
       ["You\x27ve been to " ++ sh.venue ++ " before"]
     else
       ["You\x27ve been to " ++ sh.venue ++ " " ++ toString venueCount ++ " times"])
  else (0, [])

/-- Block 3 of `generateExplanation` (time-of-day preference, up to 20
points, only when the bucket holds more than 30% of the time-bucket mass). -/
def timeSignal (sh : Show) (profile : UserProfile) : ℚ × List String :=
  match extractTimeOfDay sh.time with
  | none => (0, [])
  | some bucket =>
    let timeCount := bucketCount profile.timePreferences bucket
    let total := profile.timePreferences.morning + profile.timePreferences.afternoon
      + profile.timePreferences.evening + profile.timePreferences.lateNight
    if total > 0 then
      let timePercentage := timeCount / total * 100
      if timePercentage > 30 then
        (min (timePercentage / 100 * 20) 20,
         ["Matches your " ++ timeLabel bucket ++ " preference"])
      else (0, [])
    else (0, [])

/-- Block 4 of `generateExplanation` (model-confidence boost: up to 10 points
once the raw score exceeds 0.5, a reason only above 0.7). -/
def mlSignal (mlScore : ℚ) : ℚ × List String :=
  if mlScore > 0.5 then
    ((mlScore - 0.5) * 20,
     if mlScore > 0.7 then ["Strong match based on your patterns"] else [])
  else (0, [])

/-- Block 5 of `generateExplanation` (recency boost for events 0-7 days out,
a reason within 3 days).  `Math.floor` on the day difference is `Rat.floor`. -/
def recencySignal (jsDate : String → Option ℚ) (nowMs : ℚ)
    (eventDate : Option String) : ℚ × List String :=
  match eventDate with
  | none => (0, [])
  | some d =>
    if d = "" then (0, [])
    else
      match jsDate d with
      | none => (0, [])
      | some t =>
        let daysUntil : ℤ := ⌊(t - nowMs) / (1000 * 60 * 60 * 24)⌋
        if 0 ≤ daysUntil ∧ daysUntil ≤ 7 then
          (max 0 (((7 - daysUntil : ℤ) : ℚ) * 1),
           if daysUntil ≤ 3 then ["Happening soon"] else [])
        else (0, [])

/-- The accumulated point total (`score`) of `generateExplanation`. -/
def explanationScore (jsDate : String → Option ℚ) (nowMs : ℚ) (sh : Show)
    (profile : UserProfile) (mlScore : ℚ) (eventDate : Option String) : ℚ :=
  (artistSignal sh profile).1 + (venueSignal sh profile).1
    + (timeSignal sh profile).1 + (mlSignal mlScore).1
    + (recencySignal jsDate nowMs eventDate).1

/-- The accumulated `reasons` list of `generateExplanation`, in push order. -/
def explanationReasons (jsDate : String → Option ℚ) (nowMs : ℚ) (sh : Show)
    (profile : UserProfile) (mlScore : ℚ) (eventDate : Option String) : List String :=
  (artistSignal sh profile).2 ++ (venueSignal sh profile).2
    ++ (timeSignal sh profile).2 ++ (mlSignal mlScore).2
    ++ (recencySignal jsDate nowMs eventDate).2

/-- The result record of `generateExplanation`. -/
structure RecommendationExplanation where
  explanation : String
  reasons : List String
  confidence : ℚ
deriving DecidableEq, Repr

/-- Summary-text step of `generateExplanation`. -/
def explanationText (reasons : List String) : String :=
  match reasons with
  | [] => "Similar to events you might enjoy"
  | [r] => r
  | [r1, r2] => r1 ++ " and " ++ r2
  | r1 :: r2 :: rest =>
    r1 ++ ", " ++ r2 ++ ", and " ++ toString rest.length ++ " more reason"
      ++ (if rest.length > 1 then "s" else "")

/-- `generateExplanation` from `explanationGenerator.ts`.  (The orchestrator
passes two extra genre arguments; the function declares four parameters, so at
run time the extras are ignored.) -/
def generateExplanation (jsDate : String → Option ℚ) (nowMs : ℚ) (sh : Show)
    (profile : UserProfile) (mlScore : ℚ) (eventDate : Option String) :
    RecommendationExplanation :=
  let reasons := explanationReasons jsDate nowMs sh profile mlScore eventDate
  { explanation := explanationText reasons
    reasons := reasons
    confidence := min (explanationScore jsDate nowMs sh profile mlScore eventDate / 100) 1 }

/-! ### Date parsing oracles

`date-fns` `parse`/`isValid` and the `new Date(...)` constructor are external
collaborators.  They are modelled by two oracles: `dfParse fmt s` is the
timestamp (ms) produced by `parse(s, fmt, new Date())` when valid, and
`jsDate s` the timestamp of `new Date(s)` when valid; `none` models an
invalid date.  `startOfDay` (date-fns) is a further oracle mapping a
timestamp to its local midnight. -/

/-- `SHORT_DATE_FORMATS` from `helpers.ts`. -/
def SHORT_DATE_FORMATS : List String :=
  ["EEEE, MMMM do yyyy", "EEEE, MMMM d, yyyy", "yyyy-MM-dd"]

/-- `DATE_FORMATS` from `recommendationsCache.ts` (same formats, its own
order). -/
def CACHE_DATE_FORMATS : List String :=
  ["EEEE, MMMM d, yyyy", "EEEE, MMMM do yyyy", "yyyy-MM-dd"]

/-- The `for (const fmt of fmts) { ... if (isValid(d)) return d }` loop. -/
def firstParse (dfParse : String → String → Option ℚ) (fmts : List String)
    (s : String) : Option ℚ :=
  match fmts with
  | [] => none
  | f :: rest =>
    match dfParse f s with
    | some t => some t
    | none => firstParse dfParse rest s

/-- `parseEventDateToTimestamp` from `helpers.ts`: 0 for an empty or
whitespace-only string, the first format that parses, the `new Date`
fallback, and 0 when everything fails. -/
def parseEventDateToTimestamp (dfParse : String → String → Option ℚ)
    (jsDate : String → Option ℚ) (dateString : String) : ℚ :=
  if dateString = "" ∨ jsTrim dateString = "" then 0
  else
    match firstParse dfParse SHORT_DATE_FORMATS dateString with
    | some t => t
    | none => (jsDate dateString).getD 0

/-- `parseEventDate` from `recommendationsCache.ts` (`null` for unparseable). -/
def parseEventDate (dfParse : String → String → Option ℚ)
    (jsDate : String → Option ℚ) (dateStr : String) : Option ℚ :=
  if dateStr = "" then none
  else
    match firstParse dfParse CACHE_DATE_FORMATS dateStr with
    | some t => some t
    | none => jsDate dateStr

/-! ### recommendationsCache.ts and the load path -/

/-- Explanation plus scores for one recommended show
(`MLRecommendationScore` from `mlRecommendationEngine.ts`). -/
structure MLRecommendationScore where
  «show» : Show
  score : ℚ
  mlScore : ℚ
  explanation : RecommendationExplanation
  eventDate : Option String
deriving DecidableEq, Repr

/-- Clock/date oracle bundle for the staleness filter: the two parsers, the
`startOfDay` collaborator and the current time. -/
structure DateEnv where
  dfParse : String → String → Option ℚ
  jsDate : String → Option ℚ
  startOfDay : ℚ → ℚ
  nowMs : ℚ

/-- `isEventDatePast` from `recommendationsCache.ts`: false when unparseable,
otherwise strictly-before-today on the `startOfDay` images. -/
def isEventDatePast (env : DateEnv) (dateStr : String) : Bool :=
  match parseEventDate env.dfParse env.jsDate dateStr with
  | none => false
  | some t => env.startOfDay t < env.startOfDay env.nowMs

/-- `filterOutPastRecommendations`: keep entries with a falsy (`missing` or
empty) event date or a date that is not past. -/
def filterOutPastRecommendations (env : DateEnv)
    (recs : List MLRecommendationScore) : List MLRecommendationScore :=
  recs.filter (fun r =>
    match r.eventDate with
    | none => true
    | some s => s = "" ∨ isEventDatePast env s = false)

/-- The load path of the store (`getCachedRecommendations` composed with the
past-date filter exactly as `useRecommendations.ts` runs it on mount):
`stored` is the parsed storage content (`none` = nothing stored / read
error), a non-empty stored list is filtered, anything else leaves the empty
initial list. -/
def loadList (env : DateEnv) (stored : Option (List MLRecommendationScore)) :
    List MLRecommendationScore :=
  match stored with
  | none => []
  | some l => if 0 < l.length then filterOutPastRecommendations env l else []

/-! ### mlRecommendationEngine.ts -/

/-- JS `ToInt32` coercion (the effect of `| 0`, `& hash`, `<<`). -/
def toInt32 (n : ℤ) : ℤ :=
  (n + 2 ^ 31) % 2 ^ 32 - 2 ^ 31

/-- `hashString` from `mlRecommendationEngine.ts`:
`hash = ((hash << 5) - hash) + charCode` with 32-bit wrap each round
(`hash & hash`), then `Math.abs`.  Char codes are the UTF-16 units of the
string (identical to the code points for all BMP text). -/
def hashString (str : String) : ℤ :=
  |str.data.foldl (fun hash c => toInt32 (toInt32 (hash * 2 ^ 5) - hash + c.toNat)) 0|

/-- `convertProfileToFeatures` from `mlRecommendationEngine.ts`.  The source
sorts the `(name, count)` entries by count descending and keeps the counts of
the first five; sorting the counts themselves descending yields the same
list, because entries tied on the count contribute equal values. -/
def convertProfileToFeatures (profile : UserProfile) : UserFeatures :=
  let topArtists :=
    ((profile.favoriteArtists.map Prod.snd).mergeSort (fun a b => decide (b ≤ a))).take 5
  let topVenues :=
    ((profile.favoriteVenues.map Prod.snd).mergeSort (fun a b => decide (b ≤ a))).take 5
  { favoriteArtists := if topArtists.length > 0 then topArtists else [0]
    favoriteVenues := if topVenues.length > 0 then topVenues else [0]
    timePreferences := [profile.timePreferences.morning,
      profile.timePreferences.afternoon,
      profile.timePreferences.evening,
      profile.timePreferences.lateNight]
    dayPreferences := if (profile.dayPreferences.map Prod.snd).length > 0
      then profile.dayPreferences.map Prod.snd else [0] }

/-- `convertShowToFeatures` from `mlRecommendationEngine.ts`; `todayDow` is
the `new Date().getDay()` oracle value.  A missing/empty time means hour 12;
a `NaN` hour fails every range test and falls through to late night. -/
def convertShowToFeatures (todayDow : ℚ) (sh : Show) : EventFeatures :=
  let hour : Option ℤ :=
    match sh.time with
    | none => some 12
    | some t => if t = "" then some 12 else jsParseInt (headSegment (':') t)
  let timeOfDay : ℚ :=
    match hour with
    | none => 3
    | some h =>
      if 6 ≤ h ∧ h < 12 then 0
      else if 12 ≤ h ∧ h < 17 then 1
      else if 17 ≤ h ∧ h < 22 then 2
      else 3
  { artistId := ((hashString sh.artist % 1000 : ℤ) : ℚ)
    venueId := ((hashString sh.venue % 1000 : ℤ) : ℚ)
    timeOfDay := timeOfDay
    dayOfWeek := todayDow
    hasEventLink := if sh.eventLink = "" then 0 else 1
    hasMapLink := match sh.mapLink with
      | none => 0
      | some s => if s = "" then 0 else 1 }

/-- JS record update `counts[g] = (counts[g] || 0) + 1`. -/
def incrCount (l : List (String × ℚ)) (k : String) : List (String × ℚ) :=
  if l.any (fun p => p.1 = k) then
    l.map (fun p => if p.1 = k then (p.1, p.2 + 1) else p)
  else l ++ [(k, 1)]

/-- `buildUserGenreProfile` from `mlRecommendationEngine.ts`: over the first
20 unique favorited artists (`[...new Set(...)]` keeps first occurrences),
count each trimmed, lowercased, non-empty genre returned by the genre-lookup
collaborator (a failed lookup contributes no genres, i.e. the oracle returns
`[]`). -/
def buildUserGenreProfile (genresOf : String → List String)
    (favorites : List Show) : List (String × ℚ) :=
  let uniqueArtists := ((favorites.map Show.artist).eraseDups).take 20
  uniqueArtists.foldl
    (fun counts artist =>
      (genresOf artist).foldl
        (fun counts g =>
          let genre := jsToLower (jsTrim g)
          if genre = "" then counts else incrCount counts genre)
        counts)
    []

/-- `genreMatchScore` from `mlRecommendationEngine.ts`. -/
def genreMatchScore (userGenreCounts : List (String × ℚ))
    (showGenres : List String) : ℚ :=
  if showGenres.length = 0 ∨ userGenreCounts.length = 0 then 0
  else
    let matchCount := showGenres.countP (fun g =>
      userGenreCounts.any (fun p => p.1 = jsToLower (jsTrim g)))
    (matchCount : ℚ) / ((max showGenres.length 1 : ℕ) : ℚ)

/-- The favorite-set key `artist|venue|time-or-empty` used by the
orchestrator's skip test. -/
def favoriteKey (sh : Show) : String :=
  sh.artist ++ "|" ++ sh.venue ++ "|" ++ sh.time.getD ("")

/-- External collaborators and clock values consumed by one
`getMLRecommendations` pass: the stored profile, the score model, the genre
lookup, the fetched embedding map (`fetchEmbeddingMap` result, looked up by
`showKey`; a fetch failure is the everywhere-`none` map), the float square
root, the date parsers, `startOfDay`, and the current time/day-of-week. -/
structure Env where
  profile : Option UserProfile
  mlScore : UserFeatures → EventFeatures → ℚ
  genresOf : String → List String
  embed : String → Option (List ℚ)
  sqrtQ : ℚ → ℚ
  dfParse : String → String → Option ℚ
  jsDate : String → Option ℚ
  nowMs : ℚ
  todayDow : ℚ

/-- The sort comparator of `getMLRecommendations` as a boolean total
preorder: `le a b` iff the JS comparator returns ≤ 0 on `(a, b)` — earlier
parsed event date first, and at equal dates the larger `score` first. -/
def recLE (env : Env) (a b : MLRecommendationScore) : Bool :=
  let tA := parseEventDateToTimestamp env.dfParse env.jsDate (a.eventDate.getD (""))
  let tB := parseEventDateToTimestamp env.dfParse env.jsDate (b.eventDate.getD (""))
  decide (tA < tB ∨ (tA = tB ∧ b.score ≤ a.score))

/-- The per-candidate body of the `getMLRecommendations` double loop: skip
favorited triples, score the candidate, and keep it iff `final > 20` or the
explanation found a reason. -/
def scoreCandidate (env : Env) (profile : UserProfile)
    (favoriteKeys : List String) (userFeatures : UserFeatures)
    (userGenreProfile : List (String × ℚ)) (userEmbedding : List ℚ)
    (date : String) (sh : Show) : Option MLRecommendationScore :=
  if (favoriteKey sh) ∈ favoriteKeys then none
  else
    let eventFeatures := convertShowToFeatures env.todayDow sh
    let mlScore := env.mlScore userFeatures eventFeatures
    let genreMatch := genreMatchScore userGenreProfile (env.genresOf sh.artist)
    let explanation := generateExplanation env.jsDate env.nowMs sh profile mlScore (some date)
    let artistCount := lookupCount profile.favoriteArtists sh.artist
    let venueCount := lookupCount profile.favoriteVenues sh.venue
    let ruleBasedScore := min (artistCount * 20) 40 + min (venueCount * 15) 30
    let twoTowerScore :=
      if userEmbedding.length > 0 then
        match env.embed (showKey sh.artist sh.venue) with
        | some itemEmb =>
          if itemEmb.length > 0 then
            cosineToZeroOneQ (cosineSimilarityQ env.sqrtQ userEmbedding itemEmb)
          else 0
        | none => 0
      else 0
    let finalScore := twoTowerScore * 100 * (35 / 100 : ℚ)
      + ruleBasedScore * (5 / 10 : ℚ)
      + genreMatch * 100 * (2 / 10 : ℚ)
      + mlScore * 100 * (1 / 10 : ℚ)
    if finalScore > 20 ∨ explanation.reasons.length > 0 then
      some { «show» := sh
             score := finalScore
             mlScore := mlScore
             explanation := explanation
             eventDate := some date }
    else none

/-- The user ("two-tower") embedding built at `mlRecommendationEngine.ts:177-189`:
mean of the fetched favorite vectors, and `[]` when the locale is blank (the
fetch is skipped, as it also is when the fetch fails — the all-`none`
`embed` oracle). -/
def engineUserEmbedding (env : Env) (favorites : List Show) (city : String) :
    List ℚ :=
  if city ≠ "" ∧ jsTrim city ≠ "" then
    meanVector ((favorites.filterMap
      (fun s => env.embed (showKey s.artist s.venue))).filter
        (fun v => v.length > 0))
  else []

/-- The unsorted `scores` array built by the double loop of
`getMLRecommendations`. -/
def engineScores (env : Env) (profile : UserProfile) (events : List EventDay)
    (favorites : List Show) (city : String) : List MLRecommendationScore :=
  events.flatMap (fun day =>
    day.shows.filterMap
      (scoreCandidate env profile (favorites.map favoriteKey)
        (convertProfileToFeatures profile)
        (buildUserGenreProfile env.genresOf favorites)
        (engineUserEmbedding env favorites city) day.date))

/-- `getMLRecommendations` from `mlRecommendationEngine.ts`: gate on the
profile, skip favorited triples, score every remaining candidate of every
catalog day, sort by parsed event date then score, truncate to `limit`. -/
def getMLRecommendations (env : Env) (events : List EventDay)
    (favorites : List Show) (limit : ℕ) (city : String) :
    List MLRecommendationScore :=
  match env.profile with
  | none => []
  | some profile =>
    if profile.totalInteractions < 3 then []
    else ((engineScores env profile events favorites city).mergeSort
      (recLE env)).take limit

/-- `isRecommended` from `mlRecommendationEngine.ts`: strict equality on
artist, venue and time (`null === null` holds, `null === "x"` does not). -/
def isRecommended (sh : Show) (recommendations : List MLRecommendationScore) :
    Bool :=
  recommendations.any (fun rec =>
    rec.«show».artist = sh.artist ∧ rec.«show».venue = sh.venue ∧
      rec.«show».time = sh.time)

/-- `getRecommendationData` from `mlRecommendationEngine.ts`. -/
def getRecommendationData (sh : Show)
    (recommendations : List MLRecommendationScore) :
    Option MLRecommendationScore :=
  recommendations.find? (fun r =>
    r.«show».artist = sh.artist ∧ r.«show».venue = sh.venue ∧
      r.«show».time = sh.time)

/-! ### Derived notions used in the statements -/

/-- The sort key of a returned recommendation: its parsed event-date
timestamp, 0 for a missing, empty or unparseable date. -/
def sortKey (env : Env) (r : MLRecommendationScore) : ℚ :=
  parseEventDateToTimestamp env.dfParse env.jsDate (r.eventDate.getD (""))

/-- Result-order relation of the orchestrator: strictly earlier event date,
or same date and no smaller final score. -/
def recOrdered (env : Env) (a b : MLRecommendationScore) : Prop :=
  sortKey env a < sortKey env b ∨ (sortKey env a = sortKey env b ∧ b.score ≤ a.score)

/-- The favorite triple used by claim C3, time coalesced to the empty
string. -/
def sameTriple (a b : Show) : Prop :=
  a.artist = b.artist ∧ a.venue = b.venue ∧ a.time.getD ("") = b.time.getD ("")

/-! ### Concrete fixtures for witnesses and counterexamples -/

/-- A show with only artist, venue, time populated. -/
def mkShow (a v : String) (t : Option String) : Show :=
  { artist := a, venue := v, address := "", eventLink := "", venueLink := "",
    mapLink := none, time := t }

/-- A profile with no history at all. -/
def zeroProfile : UserProfile :=
  { favoriteArtists := [], favoriteVenues := [], timePreferences := ⟨0, 0, 0, 0⟩,
    dayPreferences := [], totalInteractions := 0, lastUpdated := "" }

/-- A profile below the engine gate. -/
def profile2 : UserProfile :=
  { zeroProfile with totalInteractions := 2 }

/-- A profile of three favorites: artists A, B, C once each at venue V. -/
def profile3 : UserProfile :=
  { favoriteArtists := [("A", 1), ("B", 1), ("C", 1)],
    favoriteVenues := [("V", 3)], timePreferences := ⟨0, 0, 0, 0⟩,
    dayPreferences := [], totalInteractions := 3, lastUpdated := "" }

/-- The favorites matching `profile3`. -/
def favs3 : List Show :=
  [mkShow ("A") ("V") none, mkShow ("B") ("V") none, mkShow ("C") ("V") none]

/-- A one-day catalog holding one non-favorited candidate. -/
def events1 : List EventDay :=
  [{ date := "D1", shows := [mkShow ("A") ("W") none] }]

/-- Environment with inert collaborators and no stored profile. -/
def baseEnv : Env :=
  { profile := none, mlScore := fun _ _ => 0, genresOf := fun _ => [],
    embed := fun _ => none, sqrtQ := fun _ => 0, dfParse := fun _ _ => none,
    jsDate := fun _ => none, nowMs := 0, todayDow := 0 }

/-- Environment whose profile is below the gate. -/
def envGate : Env :=
  { baseEnv with profile := some profile2 }

/-- Environment whose profile passes the gate. -/
def envRun : Env :=
  { baseEnv with profile := some profile3 }

/-- An all-empty recommendation record (used as a `headD` default). -/
def defaultRec : MLRecommendationScore :=
  { «show» := mkShow ("") ("") none, score := 0, mlScore := 0,
    explanation := { explanation := "", reasons := [], confidence := 0 },
    eventDate := none }

/-- The first recommendation computed on the `envRun` fixture. -/
def r0C3 : MLRecommendationScore :=
  (getMLRecommendations envRun events1 favs3 10 ("")).headD defaultRec

/-- Date oracle putting the event "D" exactly at the reference instant. -/
def dateProbe : String → Option ℚ :=
  fun s => if s = "D" then some 0 else none

/-- Date oracle putting the event "D4" four days after the reference
instant. -/
def dateProbe4 : String → Option ℚ :=
  fun s => if s = "D4" then some 345600000 else none

/-- A show with no time and an unknown artist/venue. -/
def sh0 : Show := mkShow ("X") ("Y") none

/-- A full (300-entry, distinct-key) embedding cache; entry `i` has the
`i`-fold repetition of `k` as key and carries timestamp `i`, so the
zero-length key is the globally oldest entry. -/
def cache300 : EmbCache :=
  (List.range 300).map
    (fun i => (String.mk (List.replicate i ('k')), ⟨[1], (i : ℚ)⟩))

/-- Staleness-filter environment: `new Date("P")` falls exactly two days
(172800000 ms) before the reference "now", and `startOfDay` is the identity
(every timestamp in play is already a midnight). -/
def envPast : DateEnv :=
  { dfParse := fun _ _ => none,
    jsDate := fun s => if s = "P" then some (-172800000) else none,
    startOfDay := id, nowMs := 0 }

/-- A stored recommendation dated two days before "today". -/
def recPast : MLRecommendationScore :=
  { defaultRec with eventDate := some "P" }

/-- A stored recommendation with an unparseable date. -/
def recOdd : MLRecommendationScore :=
  { defaultRec with eventDate := some "garbage" }

/-- Degenerate user features: one zero count each, an all-zero 4-bucket time
histogram. -/
def u0 : UserFeatures :=
  { favoriteArtists := [0], favoriteVenues := [0],
    timePreferences := [0, 0, 0, 0], dayPreferences := [0] }

/-- Event features whose two link flags are set. -/
def e0 : EventFeatures :=
  { artistId := 0, venueId := 0, timeOfDay := 0, dayOfWeek := 0,
    hasEventLink := 1, hasMapLink := 1 }

/-! ## Helper lemmas -/

theorem normalizeArray_ne_nil (arr : List ℚ) : normalizeArray arr ≠ [] := by
  unfold normalizeArray
  by_cases h : arr.isEmpty
  · simp [h]
  · simp [h]
    intro hc
    simp [hc] at h

/-! ## Claims -/

/-- C10: `isRecommended(s, R)` is true exactly when `getRecommendationData(s, R)`
returns a recommendation, and any recommendation it returns is an element of
`R` whose artist, venue and time are strictly equal to those of `s` (a
missing time matching only a missing time). -/
theorem isRecommended_iff_lookup (sh : Show) (R : List MLRecommendationScore) :
    (isRecommended sh R = true ↔ ∃ r, getRecommendationData sh R = some r) ∧
    (∀ r, getRecommendationData sh R = some r →
      r ∈ R ∧ r.«show».artist = sh.artist ∧ r.«show».venue = sh.venue ∧
        r.«show».time = sh.time) := by
  constructor
  · rw [isRecommended, List.any_eq_true]
    constructor
    · intro ⟨x, hx, hp⟩
      have : (getRecommendationData sh R).isSome := by
        rw [getRecommendationData, List.find?_isSome]
        exact ⟨x, hx, hp⟩
      obtain ⟨r, hr⟩ := Option.isSome_iff_exists.mp this
      exact ⟨r, hr⟩
    · intro ⟨r, hr⟩
      rw [getRecommendationData] at hr
      have h1 := List.find?_some hr
      exact ⟨r, List.mem_of_find?_eq_some hr, h1⟩
  · intro r hr
    rw [getRecommendationData] at hr
    have hp := List.find?_some hr
    simp only [decide_eq_true_eq] at hp
    exact ⟨List.mem_of_find?_eq_some hr, hp.1, hp.2.1, hp.2.2⟩

/-- C10 witness: on a one-element list containing an exact match,
`isRecommended` is true and the found element matches field-wise. -/
theorem isRecommended_iff_lookup_witness :
    isRecommended sh0 [defaultRec, { defaultRec with «show» := sh0 }] = true ∧
    ({ defaultRec with «show» := sh0 } : MLRecommendationScore) ∈
      [defaultRec, { defaultRec with «show» := sh0 }] := by
  refine ⟨?_, by decide⟩
  have h := (isRecommended_iff_lookup sh0
    [defaultRec, { defaultRec with «show» := sh0 }]).1
  refine h.mpr ⟨{ defaultRec with «show» := sh0 }, ?_⟩
  decide

unseal Rat.inv Rat.mul Rat.add Rat.sub in
/-- C9 counterexample: with the engine-standard four-entry time histogram the
`.slice(0, 10)` cut drops the trailing features, so with both link flags set
to 1 the model still receives the all-zero vector — the flags are not
included. -/
theorem buildFeatureVector_drops_flags :
    buildFeatureVector u0 e0 = List.replicate 10 0 ∧
    e0.hasEventLink = 1 ∧ e0.hasMapLink = 1 ∧
    (1 : ℚ) ∉ buildFeatureVector u0 e0 := by
  refine ⟨by decide, by decide, by decide, by decide⟩

/-- C9 amended: the feature vector always has exactly 10 elements and always
contains the candidate time-of-day bucket index divided by 4, but the slice
keeps only `8 - |timeSlice|` of the trailing event features (with
`timeSlice` the up-to-4-element normalized time histogram), so the
day-of-week entry and the has-ticket-link and has-map-link flags survive only
when the time histogram contributes at most 3, 2 and 1 entries
respectively — with the standard 4-bucket histogram all three are cut. -/
theorem buildFeatureVector_shape (u : UserFeatures) (e : EventFeatures) :
    (buildFeatureVector u e).length = 10 ∧
    buildFeatureVector u e =
      (normalizeArray u.favoriteArtists).headD 0 ::
        (normalizeArray u.favoriteVenues).headD 0 ::
          ((normalizeArray u.timePreferences).take 4 ++
            List.take (8 - ((normalizeArray u.timePreferences).take 4).length)
              [(normalizeArray u.dayPreferences).headD 0,
               e.artistId / 1000, e.venueId / 1000, e.timeOfDay / 4,
               e.dayOfWeek / 7, e.hasEventLink, e.hasMapLink]) ∧
    e.timeOfDay / 4 ∈ buildFeatureVector u e := by
  have hnt : normalizeArray u.timePreferences ≠ [] := normalizeArray_ne_nil _
  have hpos : 0 < (normalizeArray u.timePreferences).length :=
    List.length_pos.mpr hnt
  have h1 : 1 ≤ ((normalizeArray u.timePreferences).take 4).length := by
    rw [List.length_take]; omega
  have h4 : ((normalizeArray u.timePreferences).take 4).length ≤ 4 := by
    rw [List.length_take]; omega
  have heq : buildFeatureVector u e =
      (normalizeArray u.favoriteArtists).headD 0 ::
        (normalizeArray u.favoriteVenues).headD 0 ::
          ((normalizeArray u.timePreferences).take 4 ++
            List.take (8 - ((normalizeArray u.timePreferences).take 4).length)
              [(normalizeArray u.dayPreferences).headD 0,
               e.artistId / 1000, e.venueId / 1000, e.timeOfDay / 4,
               e.dayOfWeek / 7, e.hasEventLink, e.hasMapLink]) := by
    unfold buildFeatureVector
    rw [List.take_succ_cons, List.take_succ_cons, List.take_append_eq_append_take,
      List.take_of_length_le (le_trans h4 (by norm_num))]
  refine ⟨?_, heq, ?_⟩
  · rw [heq]
    simp only [List.length_cons, List.length_append, List.length_take,
      List.length_take]
    simp only [List.length_cons, List.length_nil]
    omega
  · rw [heq]
    apply List.mem_cons_of_mem
    apply List.mem_cons_of_mem
    apply List.mem_append_right
    obtain ⟨k, hk⟩ : ∃ k, 8 - ((normalizeArray u.timePreferences).take 4).length
        = k + 4 := ⟨4 - ((normalizeArray u.timePreferences).take 4).length, by omega⟩
    rw [hk]
    rw [show [(normalizeArray u.dayPreferences).headD 0,
         e.artistId / 1000, e.venueId / 1000, e.timeOfDay / 4,
         e.dayOfWeek / 7, e.hasEventLink, e.hasMapLink]
       = [(normalizeArray u.dayPreferences).headD 0,
         e.artistId / 1000, e.venueId / 1000, e.timeOfDay / 4]
         ++ [e.dayOfWeek / 7, e.hasEventLink, e.hasMapLink] from rfl]
    rw [List.take_append_eq_append_take,
      List.take_of_length_le (by simp)]
    apply List.mem_append_left
    simp

/-- C1: when no profile is stored, or the stored profile has fewer than 3
total interactions, `getMLRecommendations` returns `[]` whatever the catalog,
favorites, limit and locale are. -/
theorem getMLRecommendations_gate (env : Env) (events : List EventDay)
    (favorites : List Show) (limit : ℕ) (city : String)
    (h : ∀ p, env.profile = some p → p.totalInteractions < 3) :
    getMLRecommendations env events favorites limit city = [] := by
  unfold getMLRecommendations
  cases hp : env.profile with
  | none => rfl
  | some p =>
    simp only []
    rw [if_pos (h p hp)]

unseal Rat.inv Rat.mul Rat.add Rat.sub in
/-- C1 witness: a profile with `totalInteractions = 2` and a non-empty
catalog yield the empty list. -/
theorem getMLRecommendations_gate_witness :
    getMLRecommendations envGate events1 favs3 10 ("") = [] :=
  getMLRecommendations_gate envGate events1 favs3 10 ("")
    (fun p hp => by
      have hp2 : some profile2 = some p := hp
      cases hp2
      decide)

theorem artistSignal_nonneg (sh : Show) (p : UserProfile) :
    0 ≤ (artistSignal sh p).1 := by
  unfold artistSignal
  dsimp only
  by_cases h : lookupCount p.favoriteArtists sh.artist > 0
  · rw [if_pos h]
    exact le_min (by linarith) (by norm_num)
  · rw [if_neg h]

theorem artistSignal_reasons_nil (sh : Show) (p : UserProfile)
    (h : (artistSignal sh p).2 = []) : (artistSignal sh p).1 = 0 := by
  unfold artistSignal at *
  dsimp only at h ⊢
  by_cases h1 : lookupCount p.favoriteArtists sh.artist > 0
  · rw [if_pos h1] at h
    dsimp only at h
    exfalso
    revert h
    split_ifs <;> simp
  · rw [if_neg h1]

theorem venueSignal_nonneg (sh : Show) (p : UserProfile) :
    0 ≤ (venueSignal sh p).1 := by
  unfold venueSignal
  dsimp only
  by_cases h : lookupCount p.favoriteVenues sh.venue > 0
  · rw [if_pos h]
    exact le_min (by linarith) (by norm_num)
  · rw [if_neg h]

theorem venueSignal_reasons_nil (sh : Show) (p : UserProfile)
    (h : (venueSignal sh p).2 = []) : (venueSignal sh p).1 = 0 := by
  unfold venueSignal at *
  dsimp only at h ⊢
  by_cases h1 : lookupCount p.favoriteVenues sh.venue > 0
  · rw [if_pos h1] at h
    dsimp only at h
    exfalso
    revert h
    split_ifs <;> simp
  · rw [if_neg h1]

theorem timeSignal_nonneg (sh : Show) (p : UserProfile) :
    0 ≤ (timeSignal sh p).1 := by
  unfold timeSignal
  cases hext : extractTimeOfDay sh.time with
  | none => exact le_refl (0 : ℚ)
  | some b =>
    dsimp only
    by_cases h1 : p.timePreferences.morning + p.timePreferences.afternoon
        + p.timePreferences.evening + p.timePreferences.lateNight > 0
    · rw [if_pos h1]
      by_cases h2 : bucketCount p.timePreferences b
          / (p.timePreferences.morning + p.timePreferences.afternoon
            + p.timePreferences.evening + p.timePreferences.lateNight) * 100 > 30
      · rw [if_pos h2]
        exact le_min (by linarith) (by norm_num)
      · rw [if_neg h2]
    · rw [if_neg h1]

theorem timeSignal_reasons_nil (sh : Show) (p : UserProfile)
    (h : (timeSignal sh p).2 = []) : (timeSignal sh p).1 = 0 := by
  unfold timeSignal at *
  cases hext : extractTimeOfDay sh.time with
  | none => rfl
  | some b =>
    rw [hext] at h
    dsimp only at h ⊢
    by_cases h1 : p.timePreferences.morning + p.timePreferences.afternoon
        + p.timePreferences.evening + p.timePreferences.lateNight > 0
    · rw [if_pos h1] at h ⊢
      by_cases h2 : bucketCount p.timePreferences b
          / (p.timePreferences.morning + p.timePreferences.afternoon
            + p.timePreferences.evening + p.timePreferences.lateNight) * 100 > 30
      · rw [if_pos h2] at h
        simp at h
      · rw [if_neg h2]
    · rw [if_neg h1]

theorem mlSignal_nonneg (m : ℚ) : 0 ≤ (mlSignal m).1 := by
  unfold mlSignal
  by_cases h : m > 0.5
  · rw [if_pos h]
    have h5 : (0.5 : ℚ) = 1 / 2 := by norm_num
    rw [h5] at h
    nlinarith
  · rw [if_neg h]

theorem mlSignal_reasons_nil (m : ℚ) (h : (mlSignal m).2 = []) :
    (mlSignal m).1 ≤ 4 := by
  unfold mlSignal at *
  by_cases h1 : m > 0.5
  · rw [if_pos h1] at h ⊢
    dsimp only at h
    by_cases h2 : m > 0.7
    · rw [if_pos h2] at h
      simp at h
    · push_neg at h2
      have h7 : (0.7 : ℚ) = 7 / 10 := by norm_num
      rw [h7] at h2
      nlinarith
  · rw [if_neg h1]
    norm_num

theorem recencySignal_nonneg (jsDate : String → Option ℚ) (nowMs : ℚ)
    (eventDate : Option String) : 0 ≤ (recencySignal jsDate nowMs eventDate).1 := by
  unfold recencySignal
  cases eventDate with
  | none => exact le_refl (0 : ℚ)
  | some d =>
    dsimp only
    by_cases h1 : d = ""
    · rw [if_pos h1]
    · rw [if_neg h1]
      cases hjs : jsDate d with
      | none => exact le_refl (0 : ℚ)
      | some t =>
        dsimp only
        by_cases h2 : 0 ≤ ⌊(t - nowMs) / (1000 * 60 * 60 * 24)⌋
            ∧ ⌊(t - nowMs) / (1000 * 60 * 60 * 24)⌋ ≤ 7
        · rw [if_pos h2]
          exact le_max_left 0 _
        · rw [if_neg h2]

theorem recencySignal_reasons_nil (jsDate : String → Option ℚ) (nowMs : ℚ)
    (eventDate : Option String)
    (h : (recencySignal jsDate nowMs eventDate).2 = []) :
    (recencySignal jsDate nowMs eventDate).1 ≤ 3 := by
  unfold recencySignal at *
  cases eventDate with
  | none => norm_num
  | some d =>
    dsimp only at h ⊢
    by_cases h1 : d = ""
    · rw [if_pos h1]
      norm_num
    · rw [if_neg h1] at h ⊢
      cases hjs : jsDate d with
      | none => norm_num
      | some t =>
        rw [hjs] at h
        dsimp only at h ⊢
        by_cases h2 : 0 ≤ ⌊(t - nowMs) / (1000 * 60 * 60 * 24)⌋
            ∧ ⌊(t - nowMs) / (1000 * 60 * 60 * 24)⌋ ≤ 7
        · rw [if_pos h2] at h ⊢
          dsimp only at h
          by_cases h3 : ⌊(t - nowMs) / (1000 * 60 * 60 * 24)⌋ ≤ 3
          · rw [if_pos h3] at h
            simp at h
          · push_neg at h3
            apply max_le (by norm_num)
            rw [mul_one]
            have h4 : (7 - ⌊(t - nowMs) / (1000 * 60 * 60 * 24)⌋ : ℤ) ≤ 3 := by omega
            exact_mod_cast h4
        · rw [if_neg h2]
          norm_num

unseal Rat.inv Rat.mul Rat.add Rat.sub Rat.ofScientific in
/-- C6 counterexample: an empty profile with a raw ML score of 0.6 yields
confidence 1/50 > 0 with an empty reasons list, because the model-confidence
boost contributes points without adding a reason until the raw score exceeds
0.7. -/
theorem generateExplanation_reasonless_positive :
    (generateExplanation (fun _ => none) 0 sh0 zeroProfile (6 / 10) none).confidence > 0 ∧
    (generateExplanation (fun _ => none) 0 sh0 zeroProfile (6 / 10) none).reasons = [] := by
  refine ⟨by decide, by decide⟩

/-- C6 amended: `generateExplanation`'s confidence always lies in `[0,1]`,
and an empty reasons list bounds the point total by 7 (model-confidence boost
at a raw score in `(0.5, 0.7]` plus a recency boost 4-6 days out), so the
confidence can be positive with no reasons but only up to `7/100`:
`confidence > 7/100` implies at least one reason. -/
theorem generateExplanation_confidence_bounds (jsDate : String → Option ℚ)
    (nowMs : ℚ) (sh : Show) (profile : UserProfile) (mlScore : ℚ)
    (eventDate : Option String) :
    0 ≤ (generateExplanation jsDate nowMs sh profile mlScore eventDate).confidence ∧
    (generateExplanation jsDate nowMs sh profile mlScore eventDate).confidence ≤ 1 ∧
    ((generateExplanation jsDate nowMs sh profile mlScore eventDate).reasons = [] →
      (generateExplanation jsDate nowMs sh profile mlScore eventDate).confidence ≤ 7 / 100) := by
  have hs : 0 ≤ explanationScore jsDate nowMs sh profile mlScore eventDate := by
    unfold explanationScore
    have h1 := artistSignal_nonneg sh profile
    have h2 := venueSignal_nonneg sh profile
    have h3 := timeSignal_nonneg sh profile
    have h4 := mlSignal_nonneg mlScore
    have h5 := recencySignal_nonneg jsDate nowMs eventDate
    linarith
  refine ⟨le_min (by positivity) (by norm_num), min_le_right _ _, ?_⟩
  intro hr
  have hnil : (artistSignal sh profile).2 = [] ∧ (venueSignal sh profile).2 = []
      ∧ (timeSignal sh profile).2 = [] ∧ (mlSignal mlScore).2 = []
      ∧ (recencySignal jsDate nowMs eventDate).2 = [] := by
    have := hr
    unfold generateExplanation explanationReasons at this
    simp only [List.append_eq_nil] at this
    tauto
  have hb : explanationScore jsDate nowMs sh profile mlScore eventDate ≤ 7 := by
    unfold explanationScore
    have h1 := artistSignal_reasons_nil sh profile hnil.1
    have h2 := venueSignal_reasons_nil sh profile hnil.2.1
    have h3 := timeSignal_reasons_nil sh profile hnil.2.2.1
    have h4 := mlSignal_reasons_nil mlScore hnil.2.2.2.1
    have h5 := recencySignal_reasons_nil jsDate nowMs eventDate hnil.2.2.2.2
    linarith
  calc (generateExplanation jsDate nowMs sh profile mlScore eventDate).confidence
      ≤ explanationScore jsDate nowMs sh profile mlScore eventDate / 100 :=
        min_le_left _ _
    _ ≤ 7 / 100 := by linarith

unseal Rat.inv Rat.mul Rat.add Rat.sub Rat.ofScientific in
/-- C6 witness: the reason-less bound is attained — raw score exactly 0.7
four days out gives confidence `7/100` with no reasons. -/
theorem generateExplanation_confidence_bounds_witness :
    (generateExplanation dateProbe4 0 sh0 zeroProfile (7 / 10) (some ("D4"))).confidence
      ≤ 7 / 100 :=
  (generateExplanation_confidence_bounds dateProbe4 0 sh0 zeroProfile (7 / 10)
    (some ("D4"))).2.2 (by decide)

unseal Rat.inv Rat.mul Rat.add Rat.sub in
/-- C8 counterexample: at `days_until = 0` — the most favorable point of the
0-7 day window — the recency boost `(7 - days_until)` contributes 7 points,
not 14; no input reaches 14. -/
theorem recencyBoost_max_is_seven :
    (recencySignal dateProbe 0 (some ("D"))).1 = 7 ∧
    (recencySignal dateProbe 0 (some ("D"))).1 ≠ 14 := by
  refine ⟨by decide, by decide⟩

/-- C8 amended: for an event 0-7 days out the point total gains a recency
boost of `7 - days_until` — at most 7, not 14 — and the "Happening soon"
reason is appended exactly when `days_until ≤ 3`. -/
theorem recencyBoost_window (jsDate : String → Option ℚ) (nowMs : ℚ)
    (sh : Show) (profile : UserProfile) (mlScore : ℚ) (d : String) (t : ℚ)
    (hne : d ≠ "") (hjs : jsDate d = some t)
    (h0 : 0 ≤ ⌊(t - nowMs) / (1000 * 60 * 60 * 24)⌋)
    (h7 : ⌊(t - nowMs) / (1000 * 60 * 60 * 24)⌋ ≤ 7) :
    recencySignal jsDate nowMs (some d)
      = (((7 - ⌊(t - nowMs) / (1000 * 60 * 60 * 24)⌋ : ℤ) : ℚ),
         if ⌊(t - nowMs) / (1000 * 60 * 60 * 24)⌋ ≤ 3
           then [("Happening soon")] else []) ∧
    ((7 - ⌊(t - nowMs) / (1000 * 60 * 60 * 24)⌋ : ℤ) : ℚ) ≤ 7 ∧
    explanationScore jsDate nowMs sh profile mlScore (some d)
      = explanationScore jsDate nowMs sh profile mlScore none
        + ((7 - ⌊(t - nowMs) / (1000 * 60 * 60 * 24)⌋ : ℤ) : ℚ) ∧
    explanationReasons jsDate nowMs sh profile mlScore (some d)
      = explanationReasons jsDate nowMs sh profile mlScore none
        ++ (if ⌊(t - nowMs) / (1000 * 60 * 60 * 24)⌋ ≤ 3
              then [("Happening soon")] else []) := by
  have hsig : recencySignal jsDate nowMs (some d)
      = (((7 - ⌊(t - nowMs) / (1000 * 60 * 60 * 24)⌋ : ℤ) : ℚ),
         if ⌊(t - nowMs) / (1000 * 60 * 60 * 24)⌋ ≤ 3
           then [("Happening soon")] else []) := by
    unfold recencySignal
    dsimp only
    rw [if_neg hne, hjs]
    dsimp only
    rw [if_pos ⟨h0, h7⟩, mul_one]
    have hmax : (0 : ℚ) ⊔ ((7 - ⌊(t - nowMs) / (1000 * 60 * 60 * 24)⌋ : ℤ) : ℚ)
        = ((7 - ⌊(t - nowMs) / (1000 * 60 * 60 * 24)⌋ : ℤ) : ℚ) := by
      apply max_eq_right
      have : (0 : ℤ) ≤ 7 - ⌊(t - nowMs) / (1000 * 60 * 60 * 24)⌋ := by omega
      exact_mod_cast this
    rw [hmax]
  have hzero : recencySignal jsDate nowMs none = ((0 : ℚ), ([] : List String)) := rfl
  refine ⟨hsig, ?_, ?_, ?_⟩
  · have : (7 - ⌊(t - nowMs) / (1000 * 60 * 60 * 24)⌋ : ℤ) ≤ 7 := by omega
    exact_mod_cast this
  · unfold explanationScore
    rw [hsig, hzero]
    ring
  · unfold explanationReasons
    rw [hsig, hzero]
    simp

unseal Rat.inv Rat.mul Rat.add Rat.sub in
/-- C8 witness: an event exactly at "now" (`days_until = 0`) gets boost 7 and
the "Happening soon" reason. -/
theorem recencyBoost_window_witness :
    recencySignal dateProbe 0 (some ("D")) = (7, [("Happening soon")]) := by
  have h := recencyBoost_window dateProbe 0 sh0 zeroProfile 0 ("D") 0
    (by decide) (by decide) (by decide) (by decide)
  rw [h.1]
  norm_num

/-- C7: the load path drops every stored entry whose event date parses to a
day strictly before today (date-only, via `startOfDay`), and keeps every
entry whose date fails to parse. -/
theorem loadList_filters_past (env : DateEnv) (l : List MLRecommendationScore) :
    (∀ r ∈ l, ∀ s t, r.eventDate = some s →
       parseEventDate env.dfParse env.jsDate s = some t →
       env.startOfDay t < env.startOfDay env.nowMs →
       r ∉ loadList env (some l)) ∧
    (∀ r ∈ l,
       (∀ s, r.eventDate = some s → parseEventDate env.dfParse env.jsDate s = none) →
       r ∈ loadList env (some l)) := by
  constructor
  · intro r hr s t hs hp hlt hmem
    have hpos : 0 < l.length := List.length_pos.mpr (List.ne_nil_of_mem hr)
    unfold loadList at hmem
    dsimp only at hmem
    rw [if_pos hpos] at hmem
    unfold filterOutPastRecommendations at hmem
    obtain ⟨-, hpred⟩ := List.mem_filter.mp hmem
    rw [hs] at hpred
    simp only [decide_eq_true_eq] at hpred
    rcases hpred with hse | hfalse
    · subst hse
      unfold parseEventDate at hp
      simp at hp
    · unfold isEventDatePast at hfalse
      rw [hp] at hfalse
      simp only [decide_eq_false_iff_not] at hfalse
      exact hfalse hlt
  · intro r hr hnp
    have hpos : 0 < l.length := List.length_pos.mpr (List.ne_nil_of_mem hr)
    unfold loadList
    dsimp only
    rw [if_pos hpos]
    unfold filterOutPastRecommendations
    refine List.mem_filter.mpr ⟨hr, ?_⟩
    cases he : r.eventDate with
    | none => rfl
    | some s =>
      simp only [decide_eq_true_eq]
      by_cases hse : s = ""
      · exact Or.inl hse
      · refine Or.inr ?_
        unfold isEventDatePast
        rw [hnp s he]

unseal Rat.inv Rat.mul Rat.add Rat.sub in
/-- C7 witness: a stored entry dated two days before "today" is absent from
the loaded list, while an entry with an unparseable date is kept. -/
theorem loadList_filters_past_witness :
    recPast ∉ loadList envPast (some [recPast, recOdd]) ∧
    recOdd ∈ loadList envPast (some [recPast, recOdd]) := by
  constructor
  · exact (loadList_filters_past envPast [recPast, recOdd]).1 recPast
      (by decide) ("P") (-172800000) (by decide) (by decide) (by decide)
  · exact (loadList_filters_past envPast [recPast, recOdd]).2 recOdd
      (by decide) (fun s hs => by
        have hs2 : some "garbage" = some s := hs
        cases hs2
        decide)

theorem oldestScan_some (m : EmbCache) (q : String × ℚ) :
    ∃ q2, oldestScan (some q) m = some q2 ∧
      (q2 = q ∨ (∃ e ∈ m, e.1 = q2.1 ∧ e.2.ts = q2.2)) ∧
      q2.2 ≤ q.2 ∧ (∀ e ∈ m, q2.2 ≤ e.2.ts) := by
  induction m generalizing q with
  | nil => exact ⟨q, rfl, Or.inl rfl, le_refl _, by simp⟩
  | cons p rest ih =>
    by_cases hlt : p.2.ts < q.2
    · obtain ⟨q2, h1, h2, h3, h4⟩ := ih (p.1, p.2.ts)
      refine ⟨q2, ?_, ?_, ?_, ?_⟩
      · unfold oldestScan at h1 ⊢
        rw [List.foldl_cons]
        dsimp only
        rw [if_pos hlt]
        exact h1
      · rcases h2 with h2 | ⟨e, he, hek, het⟩
        · exact Or.inr ⟨p, List.mem_cons_self p rest, by rw [h2], by rw [h2]⟩
        · exact Or.inr ⟨e, List.mem_cons_of_mem p he, hek, het⟩
      · exact le_trans h3 (le_of_lt hlt)
      · intro e he
        rcases List.mem_cons.mp he with rfl | he2
        · exact h3
        · exact h4 e he2
    · obtain ⟨q2, h1, h2, h3, h4⟩ := ih q
      refine ⟨q2, ?_, ?_, h3, ?_⟩
      · unfold oldestScan at h1 ⊢
        rw [List.foldl_cons]
        dsimp only
        rw [if_neg hlt]
        exact h1
      · rcases h2 with h2 | ⟨e, he, hek, het⟩
        · exact Or.inl h2
        · exact Or.inr ⟨e, List.mem_cons_of_mem p he, hek, het⟩
      · intro e he
        rcases List.mem_cons.mp he with rfl | he2
        · exact le_trans h3 (le_of_not_lt hlt)
        · exact h4 e he2

theorem oldestScan_none (m : EmbCache) (hne : m ≠ []) :
    ∃ q, oldestScan none m = some q ∧
      (∃ e ∈ m, e.1 = q.1 ∧ e.2.ts = q.2) ∧ (∀ e ∈ m, q.2 ≤ e.2.ts) := by
  cases m with
  | nil => exact absurd rfl hne
  | cons p rest =>
    obtain ⟨q2, h1, h2, h3, h4⟩ := oldestScan_some rest (p.1, p.2.ts)
    refine ⟨q2, ?_, ?_, ?_⟩
    · unfold oldestScan at h1 ⊢
      rw [List.foldl_cons]
      exact h1
    · rcases h2 with h2 | ⟨e, he, hek, het⟩
      · exact ⟨p, List.mem_cons_self p rest, by rw [h2], by rw [h2]⟩
      · exact ⟨e, List.mem_cons_of_mem p he, hek, het⟩
    · intro e he
      rcases List.mem_cons.mp he with rfl | he2
      · exact h3
      · exact h4 e he2

theorem mapDelete_eq_self (m : EmbCache) (k : String)
    (h : ∀ e ∈ m, e.1 ≠ k) : mapDelete m k = m := by
  unfold mapDelete
  apply List.filter_eq_self.mpr
  intro e he
  simpa using h e he

theorem length_mapDelete_add_one (m : EmbCache) (k : String)
    (hnd : (m.map Prod.fst).Nodup) (hk : ∃ e ∈ m, e.1 = k) :
    (mapDelete m k).length + 1 = m.length := by
  induction m with
  | nil => simp at hk
  | cons p rest ih =>
    simp only [List.map_cons, List.nodup_cons] at hnd
    obtain ⟨hpk, hndr⟩ := hnd
    by_cases hp : p.1 = k
    · have hrest : ∀ e ∈ rest, e.1 ≠ k := by
        intro e he hek
        exact hpk (by rw [hp, ← hek]; exact List.mem_map_of_mem Prod.fst he)
      unfold mapDelete
      rw [List.filter_cons_of_neg (by simpa using hp)]
      have := mapDelete_eq_self rest k hrest
      unfold mapDelete at this
      rw [this]
      simp
    · obtain ⟨e, he, hek⟩ := hk
      rcases List.mem_cons.mp he with rfl | he2
      · exact absurd hek hp
      · unfold mapDelete at ih ⊢
        rw [List.filter_cons_of_pos (by simpa using hp)]
        simp only [List.length_cons]
        rw [ih hndr ⟨e, he2, hek⟩]

theorem mapSet_fresh (m : EmbCache) (k : String) (v : CacheEntry)
    (h : ∀ e ∈ m, e.1 ≠ k) : mapSet m k v = m ++ [(k, v)] := by
  unfold mapSet
  rw [if_neg]
  simp only [List.any_eq_true, decide_eq_true_eq]
  rintro ⟨e, he, hek⟩
  exact h e he hek

theorem length_mapSet_le (m : EmbCache) (k : String) (v : CacheEntry) :
    (mapSet m k v).length ≤ m.length + 1 := by
  unfold mapSet
  split_ifs
  · simp
  · simp

theorem keys_mapSet_nodup (m : EmbCache) (k : String) (v : CacheEntry)
    (hnd : (m.map Prod.fst).Nodup) : ((mapSet m k v).map Prod.fst).Nodup := by
  unfold mapSet
  split_ifs with h
  · have heq : (m.map (fun p => if p.1 = k then (k, v) else p)).map Prod.fst
        = m.map Prod.fst := by
      rw [List.map_map]
      apply List.map_congr_left
      intro p _
      by_cases hpk : p.1 = k
      · simp [hpk, Function.comp]
      · simp [hpk, Function.comp]
    rw [heq]
    exact hnd
  · have hk : ∀ e ∈ m, e.1 ≠ k := by
      intro e he hek
      rw [List.any_eq_true] at h
      exact h ⟨e, he, by simpa using hek⟩
    rw [List.map_append]
    simp only [List.map_cons, List.map_nil]
    rw [List.nodup_append]
    refine ⟨hnd, List.nodup_singleton k, ?_⟩
    intro a ha hb
    simp only [List.mem_singleton] at hb
    obtain ⟨e, he, hek⟩ := List.mem_map.mp ha
    exact hk e he (by rw [hek, hb])

theorem mem_mapSet (m : EmbCache) (k : String) (v : CacheEntry)
    (e : String × CacheEntry) (he : e ∈ mapSet m k v) : e ∈ m ∨ e = (k, v) := by
  unfold mapSet at he
  split_ifs at he with h
  · obtain ⟨p, hp, hpe⟩ := List.mem_map.mp he
    by_cases hpk : p.1 = k
    · rw [if_pos hpk] at hpe
      exact Or.inr hpe.symm
    · rw [if_neg hpk] at hpe
      exact Or.inl (hpe ▸ hp)
  · rcases List.mem_append.mp he with h1 | h1
    · exact Or.inl h1
    · exact Or.inr (List.mem_singleton.mp h1)

/-- C5: one `setEmbedding` step preserves the cache invariants — at most 300
entries, distinct keys, no empty vectors (an empty vector is never stored) —
and inserting a fresh key into a full cache first evicts exactly one entry,
one carrying the globally-minimal insertion/refresh timestamp, then appends
the new entry, landing back on exactly 300 entries. -/
theorem setEmbedding_spec (m : EmbCache) (artist venue : String)
    (emb : List ℚ) (now : ℚ)
    (hnd : (m.map Prod.fst).Nodup) (hlen : m.length ≤ 300)
    (hne : ∀ e ∈ m, e.2.embedding ≠ []) :
    (setEmbedding m artist venue emb now).length ≤ 300 ∧
    ((setEmbedding m artist venue emb now).map Prod.fst).Nodup ∧
    (∀ e ∈ setEmbedding m artist venue emb now, e.2.embedding ≠ []) ∧
    (emb = [] → setEmbedding m artist venue emb now = m) ∧
    (m.length = 300 → emb ≠ [] → (∀ e ∈ m, e.1 ≠ showKey artist venue) →
      ∃ q, oldestScan none m = some q ∧
        (∃ e ∈ m, e.1 = q.1 ∧ e.2.ts = q.2) ∧
        (∀ e ∈ m, q.2 ≤ e.2.ts) ∧
        setEmbedding m artist venue emb now
          = mapDelete m q.1 ++ [(showKey artist venue, ⟨emb, now⟩)] ∧
        (mapDelete m q.1).length + 1 = m.length ∧
        (setEmbedding m artist venue emb now).length = 300) := by
  by_cases hemb : emb.isEmpty
  · have hnil : emb = [] := List.isEmpty_iff.mp hemb
    have hid : setEmbedding m artist venue emb now = m := by
      unfold setEmbedding
      rw [if_pos hemb]
    rw [hid]
    exact ⟨hlen, hnd, hne, fun _ => rfl, fun _ h2 _ => absurd hnil h2⟩
  · have hnnil : emb ≠ [] := fun h => hemb (by rw [h]; rfl)
    by_cases hfull : MAX_ENTRIES ≤ m.length
    · have hm300 : m.length = 300 := le_antisymm hlen hfull
      have hmne : m ≠ [] := by
        intro h
        rw [h] at hm300
        simp at hm300
      obtain ⟨q, hq1, hq2, hq3⟩ := oldestScan_none m hmne
      have hevict : evictOldest m = mapDelete m q.1 := by
        unfold evictOldest
        rw [if_neg (by omega), hq1]
      have hset : setEmbedding m artist venue emb now
          = mapSet (mapDelete m q.1) (showKey artist venue) ⟨emb, now⟩ := by
        unfold setEmbedding
        rw [if_neg hemb, if_pos hfull, hevict]
      have hdel299 : (mapDelete m q.1).length + 1 = m.length := by
        obtain ⟨e, he, hek, -⟩ := hq2
        exact length_mapDelete_add_one m q.1 hnd ⟨e, he, hek⟩
      have hdelnd : ((mapDelete m q.1).map Prod.fst).Nodup :=
        ((List.filter_sublist m).map Prod.fst).nodup hnd
      have hdelmem : ∀ e ∈ mapDelete m q.1, e ∈ m := by
        intro e he
        exact List.mem_of_mem_filter he
      refine ⟨?_, ?_, ?_, fun h => absurd h hnnil, ?_⟩
      · calc (setEmbedding m artist venue emb now).length
            ≤ (mapDelete m q.1).length + 1 := by rw [hset]; exact length_mapSet_le _ _ _
          _ = m.length := hdel299
          _ ≤ 300 := hlen
      · rw [hset]
        exact keys_mapSet_nodup _ _ _ hdelnd
      · intro e he
        rw [hset] at he
        rcases mem_mapSet _ _ _ e he with h1 | h1
        · exact hne e (hdelmem e h1)
        · rw [h1]
          exact hnnil
      · intro _ _ hfresh
        have hfresh2 : ∀ e ∈ mapDelete m q.1, e.1 ≠ showKey artist venue :=
          fun e he => hfresh e (hdelmem e he)
        refine ⟨q, hq1, hq2, hq3, ?_, hdel299, ?_⟩
        · rw [hset]
          exact mapSet_fresh _ _ _ hfresh2
        · rw [hset, mapSet_fresh _ _ _ hfresh2]
          simp only [List.length_append, List.length_singleton]
          omega
    · have hset : setEmbedding m artist venue emb now
          = mapSet m (showKey artist venue) ⟨emb, now⟩ := by
        unfold setEmbedding
        rw [if_neg hemb, if_neg hfull]
      have hlt : m.length < 300 := by
        unfold MAX_ENTRIES at hfull
        omega
      refine ⟨?_, ?_, ?_, fun h => absurd h hnnil, ?_⟩
      · calc (setEmbedding m artist venue emb now).length
            ≤ m.length + 1 := by rw [hset]; exact length_mapSet_le _ _ _
          _ ≤ 300 := by omega
      · rw [hset]
        exact keys_mapSet_nodup _ _ _ hnd
      · intro e he
        rw [hset] at he
        rcases mem_mapSet _ _ _ e he with h1 | h1
        · exact hne e h1
        · rw [h1]
          exact hnnil
      · intro h300
        omega

theorem cache300_nodup : (cache300.map Prod.fst).Nodup := by
  unfold cache300
  rw [List.map_map]
  apply List.Nodup.map ?_ (List.nodup_range 300)
  intro a b hab
  have hd := congrArg String.data hab
  have hl := congrArg List.length hd
  simpa using hl

theorem cache300_len : cache300.length = 300 := by
  unfold cache300
  simp

theorem cache300_emb : ∀ e ∈ cache300, e.2.embedding ≠ [] := by
  intro e he
  unfold cache300 at he
  obtain ⟨i, _, rfl⟩ := List.mem_map.mp he
  simp

theorem cache300_fresh : ∀ e ∈ cache300, e.1 ≠ showKey ("A") ("B") := by
  intro e he heq
  unfold cache300 at he
  obtain ⟨i, _, rfl⟩ := List.mem_map.mp he
  have hdata := congrArg String.data heq
  rw [show (showKey ("A") ("B")).data = [('A'), ('|'), ('B')] by decide] at hdata
  have hdata2 : List.replicate i ('k') = [('A'), ('|'), ('B')] := hdata
  have hmem : ('A') ∈ List.replicate i ('k') := by
    rw [hdata2]
    simp
  have := List.eq_of_mem_replicate hmem
  simp at this

/-- C5 witness: inserting a 301st distinct key into the full 300-entry
fixture cache keeps the size at 300. -/
theorem setEmbedding_spec_witness :
    (setEmbedding cache300 ("A") ("B") [1] 1000).length ≤ 300 :=
  (setEmbedding_spec cache300 ("A") ("B") [1] 1000
    cache300_nodup (le_of_eq cache300_len) cache300_emb).1

theorem recLE_trans (env : Env) : ∀ a b c, recLE env a b → recLE env b c →
    recLE env a c := by
  intro a b c hab hbc
  unfold recLE at *
  simp only [decide_eq_true_eq] at *
  rcases hab with h1 | ⟨h1, h1s⟩ <;> rcases hbc with h2 | ⟨h2, h2s⟩
  · exact Or.inl (lt_trans h1 h2)
  · exact Or.inl (h2 ▸ h1)
  · exact Or.inl (h1 ▸ h2)
  · exact Or.inr ⟨h1.trans h2, le_trans h2s h1s⟩

theorem recLE_total (env : Env) : ∀ a b, recLE env a b || recLE env b a := by
  intro a b
  unfold recLE
  simp only [Bool.or_eq_true, decide_eq_true_eq]
  rcases lt_trichotomy
      (parseEventDateToTimestamp env.dfParse env.jsDate (a.eventDate.getD ("")))
      (parseEventDateToTimestamp env.dfParse env.jsDate (b.eventDate.getD (""))) with
    h | h | h
  · exact Or.inl (Or.inl h)
  · rcases le_total b.score a.score with hs | hs
    · exact Or.inl (Or.inr ⟨h, hs⟩)
    · exact Or.inr (Or.inr ⟨h.symm, hs⟩)
  · exact Or.inr (Or.inl h)

/-- C2: the result of `getMLRecommendations` never exceeds the caller's
limit and is pairwise ordered by ascending parsed event date, scores
non-increasing at equal dates; the sort key of an empty or fully-unparseable
date string is 0. -/
theorem recommendations_sorted_and_limited (env : Env) (events : List EventDay)
    (favorites : List Show) (limit : ℕ) (city : String) :
    (getMLRecommendations env events favorites limit city).length ≤ limit ∧
    List.Pairwise (recOrdered env)
      (getMLRecommendations env events favorites limit city) ∧
    parseEventDateToTimestamp env.dfParse env.jsDate ("") = 0 ∧
    (∀ s, (∀ f ∈ SHORT_DATE_FORMATS, env.dfParse f s = none) →
      env.jsDate s = none →
      parseEventDateToTimestamp env.dfParse env.jsDate s = 0) := by
  refine ⟨?_, ?_, ?_, ?_⟩
  · unfold getMLRecommendations
    cases env.profile with
    | none => simp
    | some profile =>
      dsimp only
      split_ifs
      · simp
      · exact List.length_take_le _ _
  · unfold getMLRecommendations
    cases env.profile with
    | none => exact List.Pairwise.nil
    | some profile =>
      dsimp only
      split_ifs
      · exact List.Pairwise.nil
      · have hsorted := @List.sorted_mergeSort _ (recLE env)
          (recLE_trans env) (recLE_total env)
          (engineScores env profile events favorites city)
        have htake := List.Pairwise.sublist (List.take_sublist limit _) hsorted
        exact htake.imp (fun h => by
          unfold recLE at h
          simpa only [decide_eq_true_eq] using h)
  · unfold parseEventDateToTimestamp
    rw [if_pos (Or.inl rfl)]
  · intro s hfmts hjs
    unfold parseEventDateToTimestamp
    by_cases hempty : s = "" ∨ jsTrim s = ""
    · rw [if_pos hempty]
    · rw [if_neg hempty]
      have h1 := hfmts ("EEEE, MMMM do yyyy") (by simp [SHORT_DATE_FORMATS])
      have h2 := hfmts ("EEEE, MMMM d, yyyy") (by simp [SHORT_DATE_FORMATS])
      have h3 := hfmts ("yyyy-MM-dd") (by simp [SHORT_DATE_FORMATS])
      have hfp : firstParse env.dfParse SHORT_DATE_FORMATS s = none := by
        unfold SHORT_DATE_FORMATS
        simp [firstParse, h1, h2, h3]
      rw [hfp, hjs]
      rfl

unseal List.merge List.mergeSort Rat.inv Rat.mul Rat.add Rat.sub Rat.ofScientific in
/-- C2 witness: on the running fixture the result respects the limit 1, and
the sort key of an unparsed date string is 0. -/
theorem recommendations_sorted_and_limited_witness :
    (getMLRecommendations envRun events1 favs3 1 ("")).length ≤ 1 ∧
    parseEventDateToTimestamp envRun.dfParse envRun.jsDate ("nope") = 0 :=
  ⟨(recommendations_sorted_and_limited envRun events1 favs3 1 ("")).1,
   (recommendations_sorted_and_limited envRun events1 favs3 1 ("")).2.2.2
     ("nope") (fun _ _ => rfl) rfl⟩

theorem scoreCandidate_some (env : Env) (profile : UserProfile)
    (fks : List String) (uf : UserFeatures) (ugp : List (String × ℚ))
    (ue : List ℚ) (date : String) (sh : Show) (r : MLRecommendationScore)
    (h : scoreCandidate env profile fks uf ugp ue date sh = some r) :
    r.«show» = sh ∧ favoriteKey sh ∉ fks := by
  unfold scoreCandidate at h
  by_cases hk : favoriteKey sh ∈ fks
  · rw [if_pos hk] at h
    simp at h
  · rw [if_neg hk] at h
    dsimp only at h
    refine ⟨?_, hk⟩
    split_ifs at h with hc
    all_goals first
      | (rw [← h])
      | (rw [← Option.some.inj h])

/-- C3: no recommendation returned by `getMLRecommendations` carries the
(artist, venue, time) triple of any favorited item (missing times compared
as the empty string, as in the favorite-key construction). -/
theorem recommendations_exclude_favorites (env : Env) (events : List EventDay)
    (favorites : List Show) (limit : ℕ) (city : String)
    (r : MLRecommendationScore)
    (hr : r ∈ getMLRecommendations env events favorites limit city)
    (f : Show) (hf : f ∈ favorites) : ¬ sameTriple r.«show» f := by
  rintro ⟨ha, hv, ht⟩
  unfold getMLRecommendations at hr
  cases hp : env.profile with
  | none =>
    rw [hp] at hr
    simp at hr
  | some profile =>
    rw [hp] at hr
    dsimp only at hr
    split_ifs at hr with hgate
    · simp at hr
    · have hr2 : r ∈ engineScores env profile events favorites city := by
        have h1 : r ∈ (engineScores env profile events favorites city).mergeSort
            (recLE env) := List.mem_of_mem_take hr
        exact (List.mem_mergeSort).mp h1
      unfold engineScores at hr2
      obtain ⟨day, _, hmem2⟩ := List.mem_flatMap.mp hr2
      obtain ⟨sh, _, hsc⟩ := List.mem_filterMap.mp hmem2
      obtain ⟨hshow, hknotin⟩ := scoreCandidate_some _ _ _ _ _ _ _ _ _ hsc
      apply hknotin
      rw [hshow] at ha hv ht
      have hkey : favoriteKey sh = favoriteKey f := by
        unfold favoriteKey
        rw [ha, hv, ht]
      rw [hkey]
      exact List.mem_map_of_mem favoriteKey hf

unseal List.merge List.mergeSort Rat.inv Rat.mul Rat.add Rat.sub Rat.ofScientific in
/-- C3 witness: the concrete run returns a recommendation (artist A at the
non-favorited venue W), and the theorem certifies it matches no favorite. -/
theorem recommendations_exclude_favorites_witness :
    ¬ sameTriple r0C3.«show» (mkShow ("A") ("V") none) :=
  recommendations_exclude_favorites envRun events1 favs3 10 ("") r0C3
    (by decide) (mkShow ("A") ("V") none) (by decide)

theorem sumSq_nonneg (l : List ℝ) : 0 ≤ (l.map (fun x => x * x)).sum :=
  List.sum_nonneg (fun z hz => by
    obtain ⟨w, _, rfl⟩ := List.mem_map.mp hz
    exact mul_self_nonneg w)

theorem list_cauchy_schwarz (a b : List ℝ) :
    ((List.zipWith (· * ·) a b).sum) ^ 2 ≤
      ((a.map (fun x => x * x)).sum) * ((b.map (fun x => x * x)).sum) := by
  induction a generalizing b with
  | nil => simp
  | cons x xs ih =>
    cases b with
    | nil => simp
    | cons y ys =>
      simp only [List.zipWith_cons_cons, List.sum_cons, List.map_cons]
      have hA := sumSq_nonneg xs
      have hB := sumSq_nonneg ys
      have ihh := ih ys
      rcases eq_or_lt_of_le hB with hB0 | hBpos
      · have hd2 : ((List.zipWith (· * ·) xs ys).sum) ^ 2 ≤ 0 := by
          rw [← hB0] at ihh
          simpa using ihh
        have hd : (List.zipWith (· * ·) xs ys).sum = 0 :=
          pow_eq_zero_iff (by norm_num) |>.mp (le_antisymm hd2 (sq_nonneg _))
        rw [hd, ← hB0]
        have hAy := mul_nonneg hA (sq_nonneg y)
        nlinarith [sq_nonneg (x * y)]
      · nlinarith [sq_nonneg (x * (ys.map (fun x => x * x)).sum
            - y * (List.zipWith (· * ·) xs ys).sum),
          mul_nonneg (add_nonneg (sq_nonneg y) hB) (sub_nonneg.mpr ihh),
          hBpos, hA, mul_nonneg hA hB]

theorem list_abs_dot_le (a b : List ℝ) :
    |(List.zipWith (· * ·) a b).sum| ≤
      Real.sqrt ((a.map (fun x => x * x)).sum)
        * Real.sqrt ((b.map (fun x => x * x)).sum) := by
  rw [← Real.sqrt_sq_eq_abs, ← Real.sqrt_mul (sumSq_nonneg a)]
  exact Real.sqrt_le_sqrt (list_cauchy_schwarz a b)

theorem cosineSimilarity_bounds (a b : List ℝ) :
    -1 ≤ cosineSimilarity a b ∧ cosineSimilarity a b ≤ 1 := by
  unfold cosineSimilarity
  dsimp only
  split_ifs with h1 h2
  · norm_num
  · norm_num
  · push_neg at h2
    have habs := list_abs_dot_le a b
    rw [abs_le] at habs
    constructor
    · rw [le_div_iff₀ h2]
      linarith [habs.1]
    · rw [div_le_one h2]
      exact habs.2

theorem cosineSimilarity_zero_of (a b : List ℝ)
    (h : a.length ≠ b.length ∨ (a.map (fun x => x * x)).sum = 0
      ∨ (b.map (fun x => x * x)).sum = 0) :
    cosineSimilarity a b = 0 := by
  unfold cosineSimilarity
  dsimp only
  split_ifs with h1 h2
  · rfl
  · rfl
  · exfalso
    push_neg at h1
    rcases h with hm | hA | hB
    · exact hm h1.2.2
    · exact h2 (by rw [hA, Real.sqrt_zero, zero_mul])
    · exact h2 (by rw [hB, Real.sqrt_zero, mul_zero])

theorem cosineSimilarity_self (v : List ℝ) (hne : v ≠ [])
    (hnz : ∃ x ∈ v, x ≠ 0) : cosineSimilarity v v = 1 := by
  have hlen : v.length ≠ 0 := fun h => hne (List.length_eq_zero.mp h)
  obtain ⟨x, hx, hxne⟩ := hnz
  have hS : 0 < (v.map (fun x => x * x)).sum := by
    have hmem : x * x ∈ v.map (fun x => x * x) :=
      List.mem_map_of_mem (fun x => x * x) hx
    have hle : x * x ≤ (v.map (fun x => x * x)).sum :=
      List.single_le_sum (fun z hz => by
        obtain ⟨w, _, rfl⟩ := List.mem_map.mp hz
        exact mul_self_nonneg w) _ hmem
    have hxx : 0 < x * x := mul_self_pos.mpr hxne
    linarith
  unfold cosineSimilarity
  dsimp only
  rw [if_neg (by push_neg; exact ⟨hlen, hlen, rfl⟩)]
  rw [List.zipWith_same (· * ·) v]
  rw [Real.mul_self_sqrt (le_of_lt hS)]
  rw [if_neg (not_le.mpr hS)]
  exact div_self (ne_of_gt hS)

/-- C4 counterexample: two non-empty vectors of mismatched length give
cosine similarity 0, which the `(cos + 1) / 2` remap sends to `1/2`, not to
`0` — the engine's two-tower score for such a pair is `1/2`. -/
theorem twoTowerScore_mismatch_half :
    twoTowerScore [(1 : ℝ)] (some [1, 0]) = 1 / 2 ∧ ((1 : ℝ) / 2) ≠ 0 := by
  constructor
  · have hcos : cosineSimilarity [(1 : ℝ)] [1, 0] = 0 :=
      cosineSimilarity_zero_of _ _ (Or.inl (by norm_num))
    unfold twoTowerScore
    rw [if_pos (by norm_num)]
    dsimp only
    rw [if_pos (by norm_num), hcos]
    unfold cosineToZeroOne
    norm_num
  · norm_num

/-- C4 amended: the two-tower score is total (never NaN, never throws); it is
exactly 0 when either vector is empty (the engine guard); for non-empty
vectors of equal length it equals `(cos + 1) / 2` with the cosine in
`[-1, 1]`; for non-empty vectors that mismatch in length or have zero norm
the cosine is 0, so the score is `1/2` (not 0); and for any non-zero vector
`v` the score of the pair `(v, v)` is exactly 1. -/
theorem twoTowerScore_spec (u : List ℝ) (item : Option (List ℝ)) :
    (u = [] → twoTowerScore u item = 0) ∧
    (twoTowerScore u none = 0) ∧
    (∀ v, item = some v → v = [] → twoTowerScore u item = 0) ∧
    (∀ v, item = some v → u ≠ [] → v ≠ [] →
      twoTowerScore u item = (cosineSimilarity u v + 1) / 2 ∧
      -1 ≤ cosineSimilarity u v ∧ cosineSimilarity u v ≤ 1) ∧
    (∀ v, item = some v → u ≠ [] → v ≠ [] →
      (u.length ≠ v.length ∨ (u.map (fun x => x * x)).sum = 0
        ∨ (v.map (fun x => x * x)).sum = 0) →
      twoTowerScore u item = 1 / 2) ∧
    (u ≠ [] → (∃ x ∈ u, x ≠ 0) → twoTowerScore u (some u) = 1) := by
  have hmain : ∀ v : List ℝ, u ≠ [] → v ≠ [] →
      twoTowerScore u (some v) = cosineToZeroOne (cosineSimilarity u v) := by
    intro v hu hv
    unfold twoTowerScore
    rw [if_pos (by simpa [List.length_pos] using hu)]
    dsimp only
    rw [if_pos (by simpa [List.length_pos] using hv)]
  refine ⟨?_, ?_, ?_, ?_, ?_, ?_⟩
  · intro hu
    subst hu
    unfold twoTowerScore
    rw [if_neg (by norm_num)]
  · unfold twoTowerScore
    split_ifs <;> rfl
  · intro v hv hvnil
    subst hv
    subst hvnil
    unfold twoTowerScore
    split_ifs <;> rfl
  · intro v hv hu hvne
    subst hv
    obtain ⟨hlow, hhigh⟩ := cosineSimilarity_bounds u v
    refine ⟨?_, hlow, hhigh⟩
    rw [hmain v hu hvne]
    unfold cosineToZeroOne
    apply max_eq_right
    linarith
  · intro v hv hu hvne hdeg
    subst hv
    rw [hmain v hu hvne, cosineSimilarity_zero_of u v hdeg]
    unfold cosineToZeroOne
    norm_num
  · intro hu hnz
    rw [hmain u hu hu, cosineSimilarity_self u hu hnz]
    unfold cosineToZeroOne
    norm_num

/-- C4 witness: the non-zero vector `[1]` paired with itself scores exactly
1. -/
theorem twoTowerScore_spec_witness :
    twoTowerScore [(1 : ℝ)] (some [(1 : ℝ)]) = 1 :=
  (twoTowerScore_spec [(1 : ℝ)] (some [(1 : ℝ)])).2.2.2.2.2
    (by simp) ⟨1, by simp, by norm_num⟩

end Showlist
